import Mathlib

/-!
Shallow embedding of the lp-solvers crate: the LP-format serializer
(src/lp_format.rs, src/problem.rs), the per-backend result-file readers
(src/solvers/cbc.rs, src/solvers/glpk.rs, src/solvers/gurobi.rs), the
MIP-gap setters of the four backends, and the fallback prober
(src/solvers/auto.rs). Rust f64/f32 values are modelled by explicit
inductive types that distinguish the infinities, NaN and, for f32, the
sign of zero; machine-float display and parsing are modelled on the
decimal fragment the crate actually exchanges with the solvers.
-/

namespace LpSolvers

/-- Model of Rust f64 as used for variable bounds and constraint right-hand
sides: both infinities, NaN, or a finite value (modelled as a rational;
the crate only ever renders such values, it never computes with them). -/
inductive F64 where
  | negInf
  | posInf
  | nan
  | fin (q : ℚ)
  deriving DecidableEq

/-- Comparison modelling the IEEE `<` on the F64 model: NaN compares false
with everything, negInf is below every non-NaN value, posInf above. -/
def F64.ltb : F64 → F64 → Bool
  | .nan, _ => false
  | _, .nan => false
  | .negInf, .negInf => false
  | .negInf, _ => true
  | _, .negInf => false
  | .posInf, _ => false
  | _, .posInf => true
  | .fin a, .fin b => a < b

/-- Model of the f64 method is_infinite. -/
def F64.isInfinite : F64 → Bool
  | .negInf => true
  | .posInf => true
  | _ => false

/-- Digits of the decimal expansion of r / d, with fuel; the crate only
renders values whose expansion terminates. -/
def decimalDigits : Nat → Nat → Nat → List Nat
  | 0, _, _ => []
  | _, 0, _ => []
  | fuel + 1, r, d => (r * 10 / d) :: decimalDigits fuel (r * 10 % d) d

/-- Model of the Rust Display implementation for f64 on finite values:
integers print with no decimal point, other terminating decimals print
their digits after a point. -/
def decimalRepr (q : ℚ) : String :=
  let sign := if q < 0 then "-" else ""
  let n := q.num.natAbs
  let d := q.den
  let ip := n / d
  let r := n % d
  if r = 0 then sign ++ toString ip
  else sign ++ toString ip ++ "." ++ String.join ((decimalDigits 40 r d).map toString)

/-- Model of the Rust Display implementation for the F64 model. -/
def F64.display : F64 → String
  | .negInf => "-inf"
  | .posInf => "inf"
  | .nan => "NaN"
  | .fin q => decimalRepr q

/-- Model of str::split_whitespace: split at whitespace characters and
drop the empty pieces. -/
def splitWhitespace (s : String) : List String :=
  ((s.data.splitOnP Char.isWhitespace).map (fun cs => String.mk cs)).filter (fun p => p ≠ "")

/-- Solution status, from src/solvers/mod.rs. -/
inductive Status where
  | Optimal
  | SubOptimal
  | Infeasible
  | Unbounded
  | NotSolved
  deriving DecidableEq

/-- Optimization sense, from src/lp_format.rs. -/
inductive LpObjective where
  | Minimize
  | Maximize
  deriving DecidableEq

/-- A variable of a concrete problem, from src/problem.rs; the expression
type of the concrete Problem is StrExpression, a plain string. -/
structure Variable where
  name : String
  is_integer : Bool
  lower_bound : F64
  upper_bound : F64
  deriving DecidableEq

/-- A constraint, from src/lp_format.rs: an expression, a comparison
operator (Less, Equal or Greater) and a right-hand side. -/
structure Constraint where
  lhs : String
  operator : Ordering
  rhs : F64
  deriving DecidableEq

/-- The concrete Problem type of src/problem.rs with StrExpression
expressions and the concrete Variable type. -/
structure Problem where
  name : String
  sense : LpObjective
  objective : String
  vars : List Variable
  constraints : List Constraint
  deriving DecidableEq

/-- Rendering of one constraint, from the WriteToLpFileFormat
implementation for Constraint in src/lp_format.rs. -/
def Constraint.toLpFileFormat (c : Constraint) : String :=
  c.lhs ++ " " ++
    (match c.operator with
      | Ordering.eq => "="
      | Ordering.lt => "<="
      | Ordering.gt => ">=") ++
    " " ++ c.rhs.display

/-- Objective block, from objective_lp_file_block in src/lp_format.rs. -/
def objectiveLpFileBlock (p : Problem) : String :=
  (match p.sense with
    | LpObjective.Maximize => "Maximize\n  "
    | LpObjective.Minimize => "Minimize\n  ") ++
  "obj: " ++ p.objective

/-- Constraints block, from write_constraints_lp_file_block in
src/lp_format.rs: the header is written just before the first constraint,
so an empty constraint sequence writes nothing at all. -/
def writeConstraintsLpFileBlock (cs : List Constraint) : String :=
  match cs with
  | [] => ""
  | _ => "\n\nSubject To\n" ++
      String.join ((cs.enum).map
        (fun ci => "  c" ++ toString ci.1 ++ ": " ++ ci.2.toLpFileFormat ++ "\n"))

/-- One line of the Bounds block for one variable, from the loop body of
write_bounds_lp_file_block in src/lp_format.rs. -/
def boundsLine (v : Variable) : String :=
  "  " ++
  (if F64.ltb .negInf v.lower_bound then v.lower_bound.display ++ " <= " else "") ++
  v.name ++
  (if F64.ltb v.upper_bound .posInf then " <= " ++ v.upper_bound.display else "") ++
  (if v.lower_bound.isInfinite && v.upper_bound.isInfinite then " free" else "") ++
  "\n"

/-- Names of the integer variables collected by the loop of
write_bounds_lp_file_block, in first-seen order. -/
def integerNames (vars : List Variable) : List String :=
  (vars.filter (fun v => v.is_integer)).map (fun v => v.name)

/-- Generals section, from the tail of write_bounds_lp_file_block in
src/lp_format.rs: omitted when no variable is integer. -/
def generalsSection (vars : List Variable) : String :=
  if integerNames vars = [] then ""
  else "\nGenerals\n" ++ String.join ((integerNames vars).map (fun n => "  " ++ n ++ "\n"))

/-- Bounds block, from write_bounds_lp_file_block in src/lp_format.rs. -/
def writeBoundsLpFileBlock (vars : List Variable) : String :=
  "\nBounds\n" ++ String.join (vars.map boundsLine) ++ generalsSection vars

/-- Whole-document rendering, from LpProblem::to_lp_file_format in
src/lp_format.rs. -/
def Problem.toLpFileFormat (p : Problem) : String :=
  "\\ " ++ p.name ++ "\n\n" ++
  objectiveLpFileBlock p ++
  writeConstraintsLpFileBlock p.constraints ++
  writeBoundsLpFileBlock p.vars ++
  "\nEnd\n"

/-- The problem of the simple_problem test in tests/lp_format.rs. -/
def myProblem : Problem :=
  { name := "my_problem"
    sense := .Minimize
    objective := "2 x + y"
    vars :=
      [ { name := "x", is_integer := false, lower_bound := .negInf, upper_bound := .posInf }
      , { name := "y", is_integer := false, lower_bound := .fin 0, upper_bound := .posInf }
      , { name := "z", is_integer := false, lower_bound := .fin 1, upper_bound := .fin 10 } ]
    constraints :=
      [ { lhs := "x + y + z", operator := Ordering.gt, rhs := .fin 5 } ] }

/-- The problem of the with_integers test in tests/lp_format.rs. -/
def intProblem : Problem :=
  { name := "int_problem"
    sense := .Maximize
    objective := "x - y"
    vars :=
      [ { name := "x", is_integer := true, lower_bound := .fin (-10), upper_bound := .fin 10 }
      , { name := "y", is_integer := true, lower_bound := .negInf, upper_bound := .fin (33/2) } ]
    constraints :=
      [ { lhs := "x - y", operator := Ordering.lt, rhs := .fin (-5) } ] }

/-- C1: rendering the concrete problem my_problem (Minimize, objective
"2 x + y", variables x free, y with lower bound 0, z in [1, 10], one
constraint "x + y + z" >= 5) produces exactly the documented text. -/
theorem c1_simple_problem_render : myProblem.toLpFileFormat =
    "\\ my_problem\n\nMinimize\n  obj: 2 x + y\n\nSubject To\n  c0: x + y + z >= 5\n\nBounds\n  x free\n  0 <= y\n  1 <= z <= 10\n\nEnd\n" := by
  decide

/-- C2: the Bounds line of a variable is determined by the finiteness of
its two bounds: finite lower and finite upper give both clauses, an
infinite lower (negative infinity) drops the lower clause, an infinite
upper (positive infinity) drops the upper clause, and two infinite bounds
give the bare name followed by the word free. -/
theorem c2_bounds_line_matrix (name : String) (b : Bool) (l u : ℚ) :
    boundsLine { name := name, is_integer := b, lower_bound := .fin l, upper_bound := .fin u }
      = "  " ++ (decimalRepr l ++ " <= " ++ (name ++ (" <= " ++ decimalRepr u))) ++ "\n" ∧
    boundsLine { name := name, is_integer := b, lower_bound := .negInf, upper_bound := .fin u }
      = "  " ++ (name ++ (" <= " ++ decimalRepr u)) ++ "\n" ∧
    boundsLine { name := name, is_integer := b, lower_bound := .fin l, upper_bound := .posInf }
      = "  " ++ (decimalRepr l ++ " <= " ++ name) ++ "\n" ∧
    boundsLine { name := name, is_integer := b, lower_bound := .negInf, upper_bound := .posInf }
      = "  " ++ (name ++ " free") ++ "\n" := by
  refine ⟨?_, ?_, ?_, ?_⟩ <;>
    simp [boundsLine, F64.ltb, F64.isInfinite, F64.display, String.append_assoc]

/-- C3: the Subject To section is emitted (as a prefix of the constraints
block) exactly when the constraint sequence is non-empty, and the Generals
section is emitted exactly when some variable is flagged integer, listing
the integer variable names in first-seen order. -/
theorem c3_sections_presence (p : Problem) :
    (writeConstraintsLpFileBlock p.constraints = "" ↔ p.constraints = []) ∧
    (p.constraints ≠ [] →
      ∃ body, writeConstraintsLpFileBlock p.constraints = "\n\nSubject To\n" ++ body) ∧
    (generalsSection p.vars = "" ↔ ¬ ∃ v ∈ p.vars, v.is_integer = true) ∧
    ((∃ v ∈ p.vars, v.is_integer = true) →
      generalsSection p.vars =
        "\nGenerals\n" ++
          String.join
            (((p.vars.filter (fun v => v.is_integer)).map (fun v => v.name)).map
              (fun n => "  " ++ n ++ "\n"))) := by
  have hnames : integerNames p.vars = [] ↔ ∀ v ∈ p.vars, v.is_integer = false := by
    simp [integerNames, List.map_eq_nil_iff, List.filter_eq_nil_iff]
  have hgen : (∃ v ∈ p.vars, v.is_integer = true) ↔ ¬ integerNames p.vars = [] := by
    rw [hnames]
    push_neg
    simp
  refine ⟨?_, ?_, ?_, ?_⟩
  · cases h : p.constraints with
    | nil => simp [writeConstraintsLpFileBlock]
    | cons c cs =>
      simp only [writeConstraintsLpFileBlock]
      constructor
      · intro he
        have hlen := congrArg String.length he
        rw [String.length_append] at hlen
        have h13 : ("\n\nSubject To\n" : String).length = 13 := rfl
        have h0 : ("" : String).length = 0 := rfl
        omega
      · intro he
        exact absurd he (by simp)
  · intro h
    cases hc : p.constraints with
    | nil => exact absurd hc h
    | cons c cs => exact ⟨_, rfl⟩
  · rw [generalsSection]
    by_cases h : integerNames p.vars = []
    · rw [if_pos h]
      simp only [true_iff]
      exact fun hex => (hgen.mp hex) h
    · rw [if_neg h]
      constructor
      · intro he
        have hlen := congrArg String.length he
        rw [String.length_append] at hlen
        have h10 : ("\nGenerals\n" : String).length = 10 := rfl
        have h0 : ("" : String).length = 0 := rfl
        omega
      · intro hno
        exact absurd (hgen.mpr h) hno
  · intro hex
    rw [generalsSection, if_neg (hgen.mp hex)]
    rfl

/-! Result parsers. A result artifact is modelled as its list of text
lines (newline terminators stripped), as produced by BufRead::lines over
valid UTF-8 ASCII content. A Rust panic (out-of-bounds indexing or
slicing) is modelled explicitly as a third outcome. -/

/-- Outcome of running a Rust function that can return Ok, return Err, or
panic at runtime. -/
inductive RunResult (α : Type) where
  | ok (val : α)
  | err (msg : String)
  | panicked (msg : String)
  deriving DecidableEq

/-- Value map, modelling HashMap with String keys and f32 values; insert
replaces the value of an existing key and otherwise adds the entry. -/
abbrev VarMap := List (String × ℚ)

/-- Model of HashMap::insert (entry order is irrelevant to lookups). -/
def VarMap.insertV (m : VarMap) (k : String) (v : ℚ) : VarMap :=
  if m.any (fun kv => kv.1 = k) then
    m.map (fun kv => if kv.1 = k then (k, v) else kv)
  else m ++ [(k, v)]

/-- Model of HashMap lookup on the association-list representation. -/
def VarMap.lookupV : VarMap → String → Option ℚ
  | [], _ => none
  | kv :: m, k => if kv.1 = k then some kv.2 else VarMap.lookupV m k

/-- Numeric value of a string of decimal digits. -/
def natOfDigits (ds : List Char) : Nat :=
  ds.foldl (fun n c => n * 10 + (c.toNat - 48)) 0

/-- Exponent suffix of a float literal: a non-empty digit string scaling
the mantissa by a power of ten. -/
def applyExp (base : ℚ) (neg : Bool) (ds : List Char) : Option ℚ :=
  if ds ≠ [] ∧ ds.all Char.isDigit then
    some (if neg then base / 10 ^ natOfDigits ds else base * 10 ^ natOfDigits ds)
  else none

/-- Optionally signed exponent of a float literal. -/
def parseExpPart (base : ℚ) : List Char → Option ℚ
  | '+' :: ds => applyExp base false ds
  | '-' :: ds => applyExp base true ds
  | ds => applyExp base false ds

/-- Unsigned part of a float literal: digits, an optional fractional
part, and an optional exponent. -/
def parseF32Core (cs : List Char) : Option ℚ :=
  let intPart := cs.takeWhile Char.isDigit
  let rest := cs.dropWhile Char.isDigit
  match rest with
  | [] => if intPart = [] then none else some (natOfDigits intPart)
  | '.' :: rest2 =>
    let fracPart := rest2.takeWhile Char.isDigit
    let rest3 := rest2.dropWhile Char.isDigit
    if intPart = [] ∧ fracPart = [] then none
    else
      let base : ℚ := natOfDigits intPart + (natOfDigits fracPart : ℚ) / 10 ^ fracPart.length
      match rest3 with
      | [] => some base
      | 'e' :: rest4 => parseExpPart base rest4
      | 'E' :: rest4 => parseExpPart base rest4
      | _ => none
  | 'e' :: rest2 => if intPart = [] then none else parseExpPart (natOfDigits intPart) rest2
  | 'E' :: rest2 => if intPart = [] then none else parseExpPart (natOfDigits intPart) rest2
  | _ => none

/-- Model of the f32 FromStr implementation on the finite decimal
literals the crate exchanges with the solvers (optional sign, digits,
optional fraction, optional exponent); other inputs fail to parse. -/
def parseF32 (s : String) : Option ℚ :=
  match s.data with
  | '+' :: cs => parseF32Core cs
  | '-' :: cs => (parseF32Core cs).map Neg.neg
  | cs => parseF32Core cs

/-- Display message of a ParseFloatError, as produced by e.to_string() in
the Rust source. -/
def parseErrMsg (s : String) : String :=
  if s = "" then "cannot parse float from empty string" else "invalid float literal"

/-- Unified solution type, from src/solvers/mod.rs. -/
structure Solution where
  status : Status
  results : VarMap
  deriving DecidableEq

/-! Cbc result parsing, from CbcSolver::read_specific_solution in
src/solvers/cbc.rs. -/

/-- Mapping of the whitespace tokens of the first result line to a
status, from the match in CbcSolver::read_specific_solution; a first line
with no token at all is a format error. -/
def cbcParseStatusTokens : List String → RunResult Status
  | [] => .err "Incorrect solution format"
  | status :: rest =>
    if status = "Optimal" then
      match rest with
      | substatus :: _ => if substatus = "(within" then .ok .SubOptimal else .ok .Optimal
      | [] => .ok .Optimal
    else if status = "Infeasible" ∨ status = "Integer" then .ok .Infeasible
    else if status = "Unbounded" then .ok .Unbounded
    else if status = "Stopped" then .ok .SubOptimal
    else .ok .NotSolved

/-- Value lines of a Cbc result, from the line loop of
CbcSolver::read_specific_solution: index 0 of the whitespace split is
compared with a marker before any length check, so an empty split makes
the Rust code panic with an out-of-bounds index. -/
def cbcReadValueLines : List String → VarMap → RunResult VarMap
  | [], acc => .ok acc
  | l :: rest, acc =>
    match splitWhitespace l with
    | [] => .panicked "index out of bounds: the len is 0 but the index is 0"
    | f0 :: tailFields =>
      let stripped := if f0 = "**" then tailFields else f0 :: tailFields
      if stripped.length = 4 then
        match stripped.get? 2 with
        | none => .panicked "index out of bounds"
        | some f2 =>
          match parseF32 f2 with
          | none => .err (parseErrMsg f2)
          | some n =>
            match stripped.get? 1 with
            | none => .panicked "index out of bounds"
            | some f1 => cbcReadValueLines rest (acc.insertV f1 n)
      else .err "Incorrect solution format"

/-- Cbc parser, from CbcSolver::read_specific_solution: when the problem
is available every declared variable is seeded with value 0 before the
value lines are scanned. -/
def cbcReadSolution (problem : Option Problem) (lines : List String) : RunResult Solution :=
  let vars0 : VarMap :=
    match problem with
    | some p => p.vars.foldl (fun m v => m.insertV v.name 0) []
    | none => []
  match cbcParseStatusTokens (splitWhitespace (lines.head?.getD "")) with
  | .err e => .err e
  | .panicked m => .panicked m
  | .ok status =>
    match cbcReadValueLines lines.tail vars0 with
    | .ok m => .ok ⟨status, m⟩
    | .err e => .err e
    | .panicked m => .panicked m

/-! Glpk result parsing, from GlpkSolver::read_specific_solution in
src/solvers/glpk.rs. -/

/-- Model of the usize FromStr implementation on the digit strings the
crate reads back from the solvers (an optional plus sign and digits);
other inputs fail to parse. -/
def parseUsize (s : String) : Option Nat :=
  match s.data with
  | '+' :: ds => if ds ≠ [] ∧ ds.all Char.isDigit then some (natOfDigits ds) else none
  | ds => if ds ≠ [] ∧ ds.all Char.isDigit then some (natOfDigits ds) else none

/-- Model of the nested read_size helper of
GlpkSolver::read_specific_solution: second whitespace token of the given
line, parsed as a usize. -/
def readSize : Option String → RunResult Nat
  | some l =>
    match (splitWhitespace l).get? 1 with
    | some value =>
      match parseUsize value with
      | some v => .ok v
      | none => .err "Incorrect solution format"
    | none => .err "Incorrect solution format"
  | none => .err "Incorrect solution format"

/-- Mapping of the status token (the part of the status line after the
fixed offset) to a status, from the match in
GlpkSolver::read_specific_solution. -/
def glpkStatusToken (tok : String) : RunResult Status :=
  if tok = "INTEGER OPTIMAL" ∨ tok = "OPTIMAL" then .ok .Optimal
  else if tok = "INTEGER NON-OPTIMAL" ∨ tok = "FEASIBLE" then .ok .SubOptimal
  else if tok = "INFEASIBLE (FINAL)" ∨ tok = "INTEGER EMPTY" then .ok .Infeasible
  else if tok = "UNDEFINED" then .ok .NotSolved
  else if tok = "INTEGER UNDEFINED" ∨ tok = "UNBOUNDED" then .ok .Unbounded
  else .err "Incorrect solution format: Unknown solution status"

/-- Status extraction from the status line: the Rust source slices the
line at byte offset 12, which panics when the line is shorter (the model
assumes ASCII content, so bytes coincide with characters). -/
def glpkStatusFromLine (l : String) : RunResult Status :=
  if l.data.length < 12 then
    .panicked "byte index 12 is out of bounds"
  else glpkStatusToken (String.mk (l.data.drop 12))

/-- Value lines of a Glpk result, from the for loop of
GlpkSolver::read_specific_solution: exactly col lines are consumed, each
needing at least 4 whitespace fields, with the value at field index 3 and
the name at field index 1. -/
def glpkReadValues : List String → Nat → VarMap → RunResult VarMap
  | _, 0, acc => .ok acc
  | [], _ + 1, _ => .err "Incorrect solution format: Not all columns are present"
  | l :: rest, n + 1, acc =>
    let fields := splitWhitespace l
    if fields.length ≥ 4 then
      match fields.get? 3 with
      | none => .panicked "index out of bounds"
      | some f3 =>
        match parseF32 f3 with
        | none => .err (parseErrMsg f3)
        | some v =>
          match fields.get? 1 with
          | none => .panicked "index out of bounds"
          | some f1 => glpkReadValues rest n (acc.insertV f1 v)
    else .err "Incorrect solution format: Column specification has to few fields"

/-- Glpk parser, from GlpkSolver::read_specific_solution: the row count is
on line 1, the column count on line 2, the status on line 4; then row + 7
lines are skipped and exactly col value lines are read. -/
def glpkReadSolution (lines : List String) : RunResult Solution :=
  match readSize (lines.get? 1) with
  | .err e => .err e
  | .panicked m => .panicked m
  | .ok row =>
    match readSize (lines.get? 2) with
    | .err e => .err e
    | .panicked m => .panicked m
    | .ok col =>
      match lines.get? 4 with
      | none => .err "Incorrect solution format: No solution status found"
      | some statusLine =>
        match glpkStatusFromLine statusLine with
        | .err e => .err e
        | .panicked m => .panicked m
        | .ok status =>
          match glpkReadValues (lines.drop (12 + row)) col [] with
          | .ok m => .ok ⟨status, m⟩
          | .err e => .err e
          | .panicked m => .panicked m

/-! Gurobi result parsing, from GurobiSolver::read_specific_solution in
src/solvers/gurobi.rs. -/

/-- Value lines of a Gurobi result, from the line loop of
GurobiSolver::read_specific_solution: comment lines starting with a hash
are skipped, other lines need exactly two whitespace fields. -/
def gurobiReadValueLines : List String → VarMap → RunResult VarMap
  | [], acc => .ok acc
  | l :: rest, acc =>
    if l.data.head? = some '#' then gurobiReadValueLines rest acc
    else
      let fields := splitWhitespace l
      if fields.length = 2 then
        match fields.get? 1 with
        | none => .panicked "index out of bounds"
        | some f1 =>
          match parseF32 f1 with
          | none => .err (parseErrMsg f1)
          | some n =>
            match fields.get? 0 with
            | none => .panicked "index out of bounds"
            | some f0 => gurobiReadValueLines rest (acc.insertV f0 n)
      else .err "Incorrect solution format"

/-- Body of the Gurobi parser after the first-line guard: scan the value
lines and report the result with status Optimal. -/
def gurobiBody (lines : List String) : RunResult Solution :=
  match gurobiReadValueLines lines.tail [] with
  | .ok m => .ok ⟨.Optimal, m⟩
  | .err e => .err e
  | .panicked m => .panicked m

/-- Gurobi parser, from GurobiSolver::read_specific_solution: the guard
asks whether splitting the first line on a space yields a first element,
and the else branch reports a format error. -/
def gurobiReadSolution (lines : List String) : RunResult Solution :=
  let buffer := lines.head?.getD ""
  if (((buffer.data.splitOnP (fun c => c = ' ')).map (fun cs => String.mk cs)).head?).isSome
  then gurobiBody lines
  else .err "Incorrect solution format"

/-! Lemmas about the value-map model. -/

lemma lookupV_insertV_self (m : VarMap) (k : String) (v : ℚ) :
    (m.insertV k v).lookupV k = some v := by
  rw [VarMap.insertV]
  split
  case isTrue h =>
    induction m with
    | nil => simp at h
    | cons kv m ih =>
      obtain ⟨k1, v1⟩ := kv
      by_cases hk : k1 = k
      · simp [VarMap.lookupV, hk]
      · simp only [List.any_cons, decide_eq_true_eq, hk, Bool.false_or] at h
        simpa [VarMap.lookupV, hk] using ih h
  case isFalse h =>
    induction m with
    | nil => simp [VarMap.lookupV]
    | cons kv m ih =>
      obtain ⟨k1, v1⟩ := kv
      simp only [List.any_cons, Bool.or_eq_true, decide_eq_true_eq, not_or] at h
      simpa [VarMap.lookupV, h.1] using ih (by simpa using h.2)

lemma lookupV_insertV_ne (m : VarMap) (k : String) (v : ℚ) (x : String) (hx : x ≠ k) :
    (m.insertV k v).lookupV x = m.lookupV x := by
  rw [VarMap.insertV]
  split
  case isTrue h =>
    clear h
    induction m with
    | nil => simp
    | cons kv m ih =>
      obtain ⟨k1, v1⟩ := kv
      by_cases hk : k1 = k
      · subst hk
        simp [VarMap.lookupV, Ne.symm hx, ih]
      · simp [VarMap.lookupV, hk, ih]
  case isFalse h =>
    clear h
    induction m with
    | nil => simp [VarMap.lookupV, Ne.symm hx]
    | cons kv m ih => simp [VarMap.lookupV, ih]

lemma lookupV_isSome_insertV (m : VarMap) (k : String) (v : ℚ) (x : String)
    (hx : (m.lookupV x).isSome) : ((m.insertV k v).lookupV x).isSome := by
  by_cases hxk : x = k
  · subst hxk
    simp [lookupV_insertV_self]
  · rwa [lookupV_insertV_ne m k v x hxk]

lemma seed_lookup (vs : List Variable) (acc : VarMap) (k : String) :
    (List.foldl (fun m v => m.insertV v.name 0) acc vs).lookupV k =
      if k ∈ vs.map (fun v => v.name) then some 0 else acc.lookupV k := by
  induction vs generalizing acc with
  | nil => simp
  | cons v vs ih =>
    rw [List.foldl_cons, ih]
    by_cases hmem : k ∈ vs.map (fun v => v.name)
    · simp [hmem]
    · by_cases hk : k = v.name
      · simp [hmem, hk, lookupV_insertV_self]
      · simp [hmem, hk, lookupV_insertV_ne _ _ _ _ hk]

/-- Fields of one Cbc value line after stripping the optional leading
marker token. -/
def cbcLineFields (l : String) : List String :=
  let fs := splitWhitespace l
  if fs.head? = some "**" then fs.tail else fs

/-- Variable names appearing on the value lines of a Cbc artifact. -/
def cbcArtifactNames (ls : List String) : List String :=
  ls.filterMap (fun l => (cbcLineFields l).get? 1)

/-- Pairs of a variable name and its parsed value appearing on the value
lines of a Cbc artifact. -/
def cbcArtifactPairs (ls : List String) : List (String × ℚ) :=
  ls.filterMap (fun l =>
    match (cbcLineFields l).get? 1, ((cbcLineFields l).get? 2).bind parseF32 with
    | some n, some v => some (n, v)
    | _, _ => none)

lemma cbc_values_lookup (ls : List String) (acc m : VarMap)
    (hok : cbcReadValueLines ls acc = .ok m) :
    (∀ x, (acc.lookupV x).isSome → (m.lookupV x).isSome) ∧
    (∀ x, x ∉ cbcArtifactNames ls → m.lookupV x = acc.lookupV x) := by
  induction ls generalizing acc with
  | nil =>
    simp only [cbcReadValueLines, RunResult.ok.injEq] at hok
    subst hok
    exact ⟨fun x h => h, fun x _ => rfl⟩
  | cons l rest ih =>
    simp only [cbcReadValueLines] at hok
    split at hok
    · exact absurd hok (by simp)
    case h_2 f0 tailFields heq =>
      set s := if f0 = "**" then tailFields else f0 :: tailFields with hs
      have hfields : cbcLineFields l = s := by
        rw [cbcLineFields, heq, hs]
        by_cases hmark : f0 = "**" <;> simp [hmark]
      split at hok
      case isTrue hlen =>
        split at hok
        · exact absurd hok (by simp)
        case h_2 f2 hf2 =>
          split at hok
          · exact absurd hok (by simp)
          case h_2 n hn =>
            split at hok
            · exact absurd hok (by simp)
            case h_2 f1 hf1 =>
              have hname : (cbcLineFields l).get? 1 = some f1 := by rw [hfields]; exact hf1
              have hnames : cbcArtifactNames (l :: rest) = f1 :: cbcArtifactNames rest := by
                rw [cbcArtifactNames, List.filterMap_cons, hname]
                rfl
              obtain ⟨ihs, ihn⟩ := ih _ hok
              constructor
              · intro x hx
                exact ihs x (lookupV_isSome_insertV _ _ _ _ hx)
              · intro x hx
                rw [hnames, List.mem_cons, not_or] at hx
                rw [ihn x hx.2, lookupV_insertV_ne _ _ _ _ hx.1]
      case isFalse hlen => exact absurd hok (by simp)

lemma cbc_values_named (ls : List String) (acc m : VarMap)
    (hok : cbcReadValueLines ls acc = .ok m)
    (hnd : (cbcArtifactNames ls).Nodup) :
    ∀ nv ∈ cbcArtifactPairs ls, m.lookupV nv.1 = some nv.2 := by
  induction ls generalizing acc with
  | nil => simp [cbcArtifactPairs]
  | cons l rest ih =>
    simp only [cbcReadValueLines] at hok
    split at hok
    · exact absurd hok (by simp)
    case h_2 f0 tailFields heq =>
      set s := if f0 = "**" then tailFields else f0 :: tailFields with hs
      have hfields : cbcLineFields l = s := by
        rw [cbcLineFields, heq, hs]
        by_cases hmark : f0 = "**" <;> simp [hmark]
      split at hok
      case isTrue hlen =>
        split at hok
        · exact absurd hok (by simp)
        case h_2 f2 hf2 =>
          split at hok
          · exact absurd hok (by simp)
          case h_2 n hn =>
            split at hok
            · exact absurd hok (by simp)
            case h_2 f1 hf1 =>
              have hname : (cbcLineFields l).get? 1 = some f1 := by rw [hfields]; exact hf1
              have hval : ((cbcLineFields l).get? 2).bind parseF32 = some n := by
                rw [hfields, hf2]
                simpa using hn
              have hnames : cbcArtifactNames (l :: rest) = f1 :: cbcArtifactNames rest := by
                rw [cbcArtifactNames, List.filterMap_cons, hname]
                rfl
              have hpairs : cbcArtifactPairs (l :: rest) = (f1, n) :: cbcArtifactPairs rest := by
                rw [cbcArtifactPairs, List.filterMap_cons, hname, hval]
                rfl
              rw [hnames, List.nodup_cons] at hnd
              intro nv hnv
              rw [hpairs, List.mem_cons] at hnv
              cases hnv with
              | inl hhead =>
                subst hhead
                rw [(cbc_values_lookup rest _ m hok).2 f1 hnd.1,
                  lookupV_insertV_self]
              | inr htail => exact ih _ hok hnd.2 nv htail
      case isFalse hlen => exact absurd hok (by simp)

/-- C5: parsing a Cbc result with the problem available yields a solution
whose map has an entry for every declared variable; variables the
artifact does not name keep the seeded value 0, and (when the artifact
names are distinct) every named variable carries its parsed value. -/
theorem c5_cbc_preseeding (p : Problem) (lines : List String) (sol : Solution)
    (hok : cbcReadSolution (some p) lines = .ok sol) :
    (∀ v ∈ p.vars, (sol.results.lookupV v.name).isSome) ∧
    (∀ v ∈ p.vars, v.name ∉ cbcArtifactNames lines.tail →
      sol.results.lookupV v.name = some 0) ∧
    ((cbcArtifactNames lines.tail).Nodup →
      ∀ nv ∈ cbcArtifactPairs lines.tail, sol.results.lookupV nv.1 = some nv.2) := by
  rw [cbcReadSolution] at hok
  split at hok
  · exact absurd hok (by simp)
  · exact absurd hok (by simp)
  case h_3 status hstatus =>
    split at hok
    case h_1 m hm =>
      simp only [RunResult.ok.injEq] at hok
      subst hok
      have hseed : ∀ v ∈ p.vars,
          VarMap.lookupV (List.foldl (fun m v => VarMap.insertV m v.name 0) ([] : VarMap) p.vars)
            v.name = some 0 := by
        intro v hv
        rw [seed_lookup]
        simp only [if_pos (List.mem_map_of_mem _ hv)]
      refine ⟨?_, ?_, ?_⟩
      · intro v hv
        exact (cbc_values_lookup _ _ _ hm).1 v.name (by rw [hseed v hv]; rfl)
      · intro v hv hnot
        rw [(cbc_values_lookup _ _ _ hm).2 v.name hnot, hseed v hv]
      · intro hnd
        exact cbc_values_named _ _ _ hm hnd
    · exact absurd hok (by simp)
    · exact absurd hok (by simp)

/-- C5 witness: for my_problem and an artifact naming only z, the parsed
solution still holds x and y at the seeded value 0, and z at its parsed
value 3. -/
theorem c5_cbc_preseeding_witness :
    ((Solution.mk .Optimal [("x", 0), ("y", 0), ("z", 3)]).results.lookupV "y" = some 0) ∧
    ((Solution.mk .Optimal [("x", 0), ("y", 0), ("z", 3)]).results.lookupV "z" = some 3) := by
  obtain ⟨-, h2, h3⟩ := c5_cbc_preseeding myProblem ["Optimal", "0 z 3 0"]
    (Solution.mk .Optimal [("x", 0), ("y", 0), ("z", 3)]) (by decide)
  refine ⟨?_, ?_⟩
  · exact h2 { name := "y", is_integer := false, lower_bound := .fin 0, upper_bound := .posInf }
      (by decide) (by decide)
  · exact h3 (by decide) ("z", 3) (by decide)

/-- C4: the Cbc first-token status table and the Glpk status-token table
are mapped exactly as documented; unlisted Cbc tokens give NotSolved and
unlisted Glpk tokens give a format error. -/
theorem c4_status_tables :
    (∀ rest : List String,
      cbcParseStatusTokens ("Optimal" :: "(within" :: rest) = .ok .SubOptimal) ∧
    (∀ (s : String) (rest : List String), s ≠ "(within" →
      cbcParseStatusTokens ("Optimal" :: s :: rest) = .ok .Optimal) ∧
    cbcParseStatusTokens ["Optimal"] = .ok .Optimal ∧
    (∀ rest, cbcParseStatusTokens ("Infeasible" :: rest) = .ok .Infeasible) ∧
    (∀ rest, cbcParseStatusTokens ("Integer" :: rest) = .ok .Infeasible) ∧
    (∀ rest, cbcParseStatusTokens ("Unbounded" :: rest) = .ok .Unbounded) ∧
    (∀ rest, cbcParseStatusTokens ("Stopped" :: rest) = .ok .SubOptimal) ∧
    (∀ (t : String) (rest : List String),
      t ∉ ["Optimal", "Infeasible", "Integer", "Unbounded", "Stopped"] →
      cbcParseStatusTokens (t :: rest) = .ok .NotSolved) ∧
    glpkStatusToken "OPTIMAL" = .ok .Optimal ∧
    glpkStatusToken "INTEGER OPTIMAL" = .ok .Optimal ∧
    glpkStatusToken "FEASIBLE" = .ok .SubOptimal ∧
    glpkStatusToken "INTEGER NON-OPTIMAL" = .ok .SubOptimal ∧
    glpkStatusToken "INFEASIBLE (FINAL)" = .ok .Infeasible ∧
    glpkStatusToken "INTEGER EMPTY" = .ok .Infeasible ∧
    glpkStatusToken "UNDEFINED" = .ok .NotSolved ∧
    glpkStatusToken "UNBOUNDED" = .ok .Unbounded ∧
    glpkStatusToken "INTEGER UNDEFINED" = .ok .Unbounded ∧
    (∀ t : String,
      t ∉ ["INTEGER OPTIMAL", "OPTIMAL", "INTEGER NON-OPTIMAL", "FEASIBLE",
            "INFEASIBLE (FINAL)", "INTEGER EMPTY", "UNDEFINED",
            "INTEGER UNDEFINED", "UNBOUNDED"] →
      glpkStatusToken t = .err "Incorrect solution format: Unknown solution status") := by
  refine ⟨fun rest => rfl, ?_, rfl, fun rest => ?_, fun rest => ?_, fun rest => ?_,
    fun rest => ?_, ?_, rfl, rfl, rfl, rfl, rfl, rfl, rfl, rfl, rfl, ?_⟩
  · intro s rest hs
    simp [cbcParseStatusTokens, hs]
  · simp [cbcParseStatusTokens]
  · simp [cbcParseStatusTokens]
  · simp [cbcParseStatusTokens]
  · simp [cbcParseStatusTokens]
  · intro t rest ht
    simp only [List.mem_cons, List.mem_singleton, not_or] at ht
    obtain ⟨h1, h2, h3, h4, h5, -⟩ := ht
    simp [cbcParseStatusTokens, h1, h2, h3, h4, h5]
  · intro t ht
    simp only [List.mem_cons, List.mem_singleton, not_or] at ht
    obtain ⟨g1, g2, g3, g4, g5, g6, g7, g8, g9, -⟩ := ht
    simp [glpkStatusToken, g1, g2, g3, g4, g5, g6, g7, g8, g9]

/-- C4 witness: the tables applied at concrete tokens. -/
theorem c4_status_tables_witness :
    cbcParseStatusTokens ["Optimal", "objective"] = .ok .Optimal ∧
    cbcParseStatusTokens ["Whatever"] = .ok .NotSolved ∧
    glpkStatusToken "BOGUS" = .err "Incorrect solution format: Unknown solution status" := by
  obtain ⟨-, hopt, -, -, -, -, -, hother, -, -, -, -, -, -, -, -, -, hglpk⟩ :=
    c4_status_tables
  exact ⟨hopt "objective" [] (by decide), hother "Whatever" [] (by decide),
    hglpk "BOGUS" (by decide)⟩

/-- C3 witness: a problem with one constraint and two integer variables
has both the Subject To header and a populated Generals section. -/
theorem c3_sections_presence_witness :
    (∃ body, writeConstraintsLpFileBlock intProblem.constraints = "\n\nSubject To\n" ++ body) ∧
    generalsSection intProblem.vars =
      "\nGenerals\n" ++
        String.join
          (((intProblem.vars.filter (fun v => v.is_integer)).map (fun v => v.name)).map
            (fun n => "  " ++ n ++ "\n")) := by
  obtain ⟨-, h2, -, h4⟩ := c3_sections_presence intProblem
  exact ⟨h2 (by decide), h4 (by decide)⟩

/-- C7: contrary to the no-panic design rule, both line parsers can
panic on caller-supplied artifacts: Cbc on a value line whose whitespace
split is empty, Glpk on a status line shorter than the fixed offset. -/
theorem c7_parsers_panic_on_malformed :
    cbcReadSolution none ["Optimal", ""] =
      .panicked "index out of bounds: the len is 0 but the index is 0" ∧
    glpkReadSolution ["solution", "Rows: 0", "Columns: 0", "x", "Status:"] =
      .panicked "byte index 12 is out of bounds" := by
  exact ⟨by decide, by decide⟩

/-- C10: the Gurobi first-line guard can never fail, because splitting
any string on a space yields at least one piece; consequently the parser
always runs its body, and an empty result file parses to an Ok solution
with status Optimal and no values. -/
theorem c10_gurobi_guard :
    (∀ lines : List String, gurobiReadSolution lines = gurobiBody lines) ∧
    gurobiReadSolution [] = .ok ⟨.Optimal, []⟩ := by
  have hguard : ∀ lines : List String,
      ((((lines.head?.getD "").data.splitOnP (fun c => c = ' ')).map
        (fun cs => String.mk cs)).head?).isSome := by
    intro lines
    have hne : ((lines.head?.getD "").data.splitOnP (fun c => c = ' ')).map
        (fun cs => String.mk cs) ≠ [] := by
      intro hmap
      rw [List.map_eq_nil_iff] at hmap
      exact List.splitOnP_ne_nil _ _ hmap
    cases hcase : ((lines.head?.getD "").data.splitOnP (fun c => c = ' ')).map
        (fun cs => String.mk cs) with
    | nil => exact absurd hcase hne
    | cons a t => simp
  constructor
  · intro lines
    rw [gurobiReadSolution]
    simp only [if_pos (hguard lines)]
  · rfl

/-! MIP-gap configuration, from the WithMipGap implementations in
src/solvers/cbc.rs, src/solvers/glpk.rs, src/solvers/gurobi.rs and
src/solvers/cplex.rs. -/

/-- Model of Rust f32 for the gap knob: NaN, infinity and zero carry
their sign bit explicitly, other finite values are a nonzero rational
whose sign is the sign bit. -/
inductive F32 where
  | nan (negSign : Bool)
  | inf (negSign : Bool)
  | zero (negSign : Bool)
  | fin (q : ℚ)
  deriving DecidableEq

/-- Model of the f32 method is_sign_positive: true when the sign bit is
clear, for zeros, infinities and NaN as well. -/
def F32.isSignPositive : F32 → Bool
  | .nan s => !s
  | .inf s => !s
  | .zero s => !s
  | .fin q => decide (0 < q)

/-- Model of the f32 method is_finite. -/
def F32.isFinite : F32 → Bool
  | .nan _ => false
  | .inf _ => false
  | .zero _ => true
  | .fin _ => true

/-- CbcSolver configuration record, from src/solvers/cbc.rs. -/
structure CbcSolver where
  name : String
  command_name : String
  temp_solution_file : Option String
  threads : Option Nat
  seconds : Option Nat
  mipgap : Option F32
  deriving DecidableEq

/-- CbcSolver::new. -/
def CbcSolver.new : CbcSolver :=
  { name := "Cbc", command_name := "cbc", temp_solution_file := none,
    threads := none, seconds := none, mipgap := none }

/-- CbcSolver::with_mip_gap, from the WithMipGap implementation in
src/solvers/cbc.rs. -/
def CbcSolver.with_mip_gap (s : CbcSolver) (mipgap : F32) : Except String CbcSolver :=
  if mipgap.isSignPositive && mipgap.isFinite then
    .ok { s with mipgap := some mipgap }
  else .error "Invalid MIP gap: must be positive and finite"

/-- GlpkSolver configuration record, from src/solvers/glpk.rs. -/
structure GlpkSolver where
  name : String
  command_name : String
  temp_solution_file : Option String
  seconds : Option Nat
  mipgap : Option F32
  deriving DecidableEq

/-- GlpkSolver::new. -/
def GlpkSolver.new : GlpkSolver :=
  { name := "Glpk", command_name := "glpsol", temp_solution_file := none,
    seconds := none, mipgap := none }

/-- GlpkSolver::with_mip_gap, from the WithMipGap implementation in
src/solvers/glpk.rs. -/
def GlpkSolver.with_mip_gap (s : GlpkSolver) (mipgap : F32) : Except String GlpkSolver :=
  if mipgap.isSignPositive && mipgap.isFinite then
    .ok { s with mipgap := some mipgap }
  else .error "Invalid MIP gap: must be positive and finite"

/-- GurobiSolver configuration record, from src/solvers/gurobi.rs. -/
structure GurobiSolver where
  name : String
  command_name : String
  temp_solution_file : Option String
  mipgap : Option F32
  deriving DecidableEq

/-- GurobiSolver::new. -/
def GurobiSolver.new : GurobiSolver :=
  { name := "Gurobi", command_name := "gurobi_cl", temp_solution_file := none,
    mipgap := none }

/-- GurobiSolver::with_mip_gap, from the WithMipGap implementation in
src/solvers/gurobi.rs. -/
def GurobiSolver.with_mip_gap (s : GurobiSolver) (mipgap : F32) : Except String GurobiSolver :=
  if mipgap.isSignPositive && mipgap.isFinite then
    .ok { s with mipgap := some mipgap }
  else .error "Invalid MIP gap: must be positive and finite"

/-- Cplex configuration record, from src/solvers/cplex.rs. -/
structure Cplex where
  command : String
  mipgap : Option F32
  deriving DecidableEq

/-- The Default implementation for Cplex. -/
def Cplex.default : Cplex :=
  { command := "cplex", mipgap := none }

/-- Cplex::with_mip_gap, from the WithMipGap implementation in
src/solvers/cplex.rs. -/
def Cplex.with_mip_gap (s : Cplex) (mipgap : F32) : Except String Cplex :=
  if mipgap.isSignPositive && mipgap.isFinite then
    .ok { s with mipgap := some mipgap }
  else .error "Invalid MIP gap: must be positive and finite"

/-- C9 counterexample: the setter accepts a gap of positive zero in all
four backends, while the claim says a zero gap is rejected. -/
theorem c9_zero_gap_accepted :
    CbcSolver.new.with_mip_gap (.zero false) =
      .ok { CbcSolver.new with mipgap := some (.zero false) } ∧
    GlpkSolver.new.with_mip_gap (.zero false) =
      .ok { GlpkSolver.new with mipgap := some (.zero false) } ∧
    GurobiSolver.new.with_mip_gap (.zero false) =
      .ok { GurobiSolver.new with mipgap := some (.zero false) } ∧
    Cplex.default.with_mip_gap (.zero false) =
      .ok { Cplex.default with mipgap := some (.zero false) } := by
  exact ⟨rfl, rfl, rfl, rfl⟩

/-- C9 amended: the setter tests the sign bit and finiteness, so it
stores the gap for every finite value with a clear sign bit (strictly
positive values and positive zero) and errors on negative-signed values,
infinities and NaN, identically in the four backends. -/
theorem c9_mip_gap_validation (g : F32) :
    (g.isSignPositive = true ∧ g.isFinite = true →
      CbcSolver.new.with_mip_gap g = .ok { CbcSolver.new with mipgap := some g } ∧
      GlpkSolver.new.with_mip_gap g = .ok { GlpkSolver.new with mipgap := some g } ∧
      GurobiSolver.new.with_mip_gap g = .ok { GurobiSolver.new with mipgap := some g } ∧
      Cplex.default.with_mip_gap g = .ok { Cplex.default with mipgap := some g }) ∧
    (¬(g.isSignPositive = true ∧ g.isFinite = true) →
      CbcSolver.new.with_mip_gap g = .error "Invalid MIP gap: must be positive and finite" ∧
      GlpkSolver.new.with_mip_gap g = .error "Invalid MIP gap: must be positive and finite" ∧
      GurobiSolver.new.with_mip_gap g = .error "Invalid MIP gap: must be positive and finite" ∧
      Cplex.default.with_mip_gap g = .error "Invalid MIP gap: must be positive and finite") ∧
    ((∃ q : ℚ, 0 < q ∧ g = .fin q) → g.isSignPositive = true ∧ g.isFinite = true) ∧
    (g.isFinite = false ∨ g.isSignPositive = false →
      ¬(g.isSignPositive = true ∧ g.isFinite = true)) := by
  refine ⟨?_, ?_, ?_, ?_⟩
  · intro ⟨h1, h2⟩
    rw [CbcSolver.with_mip_gap, GlpkSolver.with_mip_gap, GurobiSolver.with_mip_gap,
      Cplex.with_mip_gap]
    simp [h1, h2]
  · intro h
    have hb : (g.isSignPositive && g.isFinite) = false := by
      cases hs : g.isSignPositive <;> cases hf : g.isFinite <;> simp_all
    rw [CbcSolver.with_mip_gap, GlpkSolver.with_mip_gap, GurobiSolver.with_mip_gap,
      Cplex.with_mip_gap]
    simp [hb]
  · intro ⟨q, hq, hg⟩
    subst hg
    exact ⟨by simpa [F32.isSignPositive] using hq, rfl⟩
  · intro h hc
    cases h with
    | inl hf => rw [hc.2] at hf; exact absurd hf (by simp)
    | inr hs => rw [hc.1] at hs; exact absurd hs (by simp)

/-- C9 witness: a strictly positive finite gap is stored, and a negative
gap and an infinite gap are rejected, in all four backends. -/
theorem c9_mip_gap_validation_witness :
    CbcSolver.new.with_mip_gap (.fin 1) =
      .ok { CbcSolver.new with mipgap := some (.fin 1) } ∧
    Cplex.default.with_mip_gap (.fin 1) =
      .ok { Cplex.default with mipgap := some (.fin 1) } ∧
    GlpkSolver.new.with_mip_gap (.fin (-1)) =
      .error "Invalid MIP gap: must be positive and finite" ∧
    GurobiSolver.new.with_mip_gap (.inf false) =
      .error "Invalid MIP gap: must be positive and finite" := by
  obtain ⟨hok, -, -, -⟩ := c9_mip_gap_validation (.fin 1)
  obtain ⟨-, herr1, -, -⟩ := c9_mip_gap_validation (.fin (-1))
  obtain ⟨-, herr2, -, -⟩ := c9_mip_gap_validation (.inf false)
  obtain ⟨h1, h2, -, h4⟩ := hok (by decide)
  exact ⟨h1, h4, (herr1 (by decide)).2.1, (herr2 (by decide)).2.2.1⟩

/-! Fallback prober, from src/solvers/auto.rs. -/

/-- Behavior of one child solver: what its SolverTrait::run returns for a
given problem (the chain is generic in its child solvers, so a child is
modelled by its run function). -/
abbrev SolverFun := Problem → Except String Solution

/-- The nested AutoSolver chain ended by NoSolver, from
src/solvers/auto.rs. -/
inductive SolverChain where
  | noSolver
  | auto (solver : SolverFun) (next : SolverChain)

/-- The dummy probe problem built inside AutoSolver::run. -/
def dummyProblem : Problem :=
  { name := "dummy"
    sense := .Minimize
    objective := "x"
    vars := [{ name := "x", is_integer := false, lower_bound := .fin 0, upper_bound := .fin 1 }]
    constraints := [] }

/-- Model of SolverTrait::run for NoSolver and AutoSolver, instrumented
with the list of (candidate index, problem) pairs on which a child run is
invoked, in invocation order: an AutoSolver node first runs its own
solver on the dummy problem and, when that probe is Ok, runs it on the
real problem; otherwise it delegates to the rest of the chain, and the
final NoSolver fails without running anything. -/
def SolverChain.runFrom : SolverChain → Nat → Problem → Except String Solution × List (Nat × Problem)
  | .noSolver, _, _ => (.error "No solver available", [])
  | .auto s next, i, p =>
    if (s dummyProblem).isOk then (s p, [(i, dummyProblem), (i, p)])
    else
      let r := next.runFrom (i + 1) p
      (r.1, (i, dummyProblem) :: r.2)

/-- Result of SolverTrait::run on a chain. -/
def SolverChain.run (c : SolverChain) (p : Problem) : Except String Solution :=
  (c.runFrom 0 p).1

/-- Child solvers of a chain, head first. -/
def SolverChain.candidates : SolverChain → List SolverFun
  | .noSolver => []
  | .auto s next => s :: next.candidates

lemma shift_map (i n : Nat) :
    List.map (fun j => (i + 1 + j, dummyProblem)) (List.range n) =
      List.map (fun j => (i + j, dummyProblem)) ((List.range n).map Nat.succ) := by
  rw [List.map_map]
  apply List.map_congr_left
  intro j hj
  have harith : i + 1 + j = i + (j + 1) := by omega
  simp [Function.comp, harith]

lemma runFrom_all_fail (c : SolverChain) (i : Nat) (p : Problem)
    (hfail : ∀ s ∈ c.candidates, ¬((s dummyProblem).isOk = true)) :
    c.runFrom i p =
      (.error "No solver available",
        (List.range c.candidates.length).map (fun j => (i + j, dummyProblem))) := by
  induction c generalizing i with
  | noSolver => simp [SolverChain.runFrom, SolverChain.candidates]
  | auto s next ih =>
    have hs : ¬((s dummyProblem).isOk = true) :=
      hfail s (by simp [SolverChain.candidates])
    rw [SolverChain.runFrom, if_neg hs,
      ih (i + 1) (fun t ht => hfail t (by simp [SolverChain.candidates, ht]))]
    simp only [SolverChain.candidates, List.length_cons, List.range_succ_eq_map,
      List.map_cons]
    rw [shift_map i next.candidates.length]
    simp

lemma runFrom_first_ok (c : SolverChain) (i : Nat) (p : Problem) (k : Nat)
    (hk : k < c.candidates.length)
    (hfail : ∀ j, (hj : j < k) → ¬(((c.candidates.get ⟨j, by omega⟩) dummyProblem).isOk = true))
    (hok : ((c.candidates.get ⟨k, hk⟩) dummyProblem).isOk = true) :
    c.runFrom i p =
      ((c.candidates.get ⟨k, hk⟩) p,
        ((List.range (k + 1)).map (fun j => (i + j, dummyProblem))) ++ [(i + k, p)]) := by
  induction c generalizing i k with
  | noSolver => simp [SolverChain.candidates] at hk
  | auto s next ih =>
    cases k with
    | zero =>
      have hok0 : ((s dummyProblem).isOk = true) := by
        simpa [SolverChain.candidates] using hok
      rw [SolverChain.runFrom, if_pos hok0]
      simp [SolverChain.candidates, List.range_succ]
    | succ k =>
      have hs : ¬((s dummyProblem).isOk = true) := by
        have := hfail 0 (by omega)
        simpa [SolverChain.candidates] using this
      rw [SolverChain.runFrom, if_neg hs]
      have hk2 : k < next.candidates.length := by
        simpa [SolverChain.candidates] using hk
      have hfail2 : ∀ j, (hj : j < k) →
          ¬(((next.candidates.get ⟨j, by omega⟩) dummyProblem).isOk = true) := by
        intro j hj
        have := hfail (j + 1) (by omega)
        simpa [SolverChain.candidates] using this
      have hok2 : ((next.candidates.get ⟨k, hk2⟩) dummyProblem).isOk = true := by
        simpa [SolverChain.candidates] using hok
      rw [ih (i + 1) k hk2 hfail2 hok2]
      simp only [SolverChain.candidates, List.get_cons_succ]
      conv_rhs => rw [List.range_succ_eq_map, List.map_cons, List.cons_append]
      rw [shift_map i (k + 1)]
      have harith : i + 1 + k = i + (k + 1) := by omega
      rw [harith]
      simp

/-- C6: for every chain of candidates ended by the NoSolver sentinel and
every problem other than the synthetic probe: the probe problem has one
variable and no constraints; when every probe fails the run returns the
No-solver error and the real problem is never handed to any candidate;
and when candidate k is the first whose probe is Ok, the run returns
exactly the result of candidate k on the real problem, after probing
candidates 0 through k in order and running the real problem exactly
once, on candidate k. -/
theorem c6_auto_prober (c : SolverChain) (p : Problem) (hp : p ≠ dummyProblem) :
    (dummyProblem.vars.length = 1 ∧ dummyProblem.constraints = []) ∧
    ((∀ s ∈ c.candidates, ¬((s dummyProblem).isOk = true)) →
      c.run p = .error "No solver available" ∧
      ∀ e ∈ (c.runFrom 0 p).2, e.2 ≠ p) ∧
    (∀ k, (hk : k < c.candidates.length) →
      (∀ j, (hj : j < k) → ¬(((c.candidates.get ⟨j, by omega⟩) dummyProblem).isOk = true)) →
      ((c.candidates.get ⟨k, hk⟩) dummyProblem).isOk = true →
      c.run p = (c.candidates.get ⟨k, hk⟩) p ∧
      (c.runFrom 0 p).2 =
        ((List.range (k + 1)).map (fun j => (j, dummyProblem))) ++ [(k, p)]) := by
  refine ⟨⟨rfl, rfl⟩, ?_, ?_⟩
  · intro hfail
    rw [SolverChain.run, runFrom_all_fail c 0 p hfail]
    refine ⟨rfl, ?_⟩
    intro e he
    simp only [List.mem_map, List.mem_range] at he
    obtain ⟨j, -, hje⟩ := he
    rw [← hje]
    exact fun hdp => hp hdp.symm
  · intro k hk hfail hok
    rw [SolverChain.run, runFrom_first_ok c 0 p k hk hfail hok]
    refine ⟨rfl, ?_⟩
    simp

/-- A candidate whose spawn always fails. -/
def failingSolver : SolverFun := fun _ => .error "Error while running cbc: not found"

/-- A candidate that always succeeds with an empty Optimal solution. -/
def workingSolver : SolverFun := fun _ => .ok ⟨.Optimal, []⟩

/-- C6 witness: in a chain where only the second candidate probes
successfully, the real problem runs once on it; the log shows the two
probes in order followed by the single real run. -/
theorem c6_auto_prober_witness :
    (SolverChain.auto failingSolver (.auto workingSolver .noSolver)).run myProblem =
      .ok ⟨.Optimal, []⟩ ∧
    ((SolverChain.auto failingSolver (.auto workingSolver .noSolver)).runFrom 0 myProblem).2 =
      [(0, dummyProblem), (1, dummyProblem), (1, myProblem)] := by
  obtain ⟨-, -, hfirst⟩ :=
    c6_auto_prober (SolverChain.auto failingSolver (.auto workingSolver .noSolver)) myProblem
      (by decide)
  obtain ⟨hrun, hlog⟩ := hfirst 1 (by simp [SolverChain.candidates])
    (by
      intro j hj
      have hj0 : j = 0 := by omega
      subst hj0
      simp [SolverChain.candidates, failingSolver, Except.isOk, Except.toBool])
    (by simp [SolverChain.candidates, workingSolver, Except.isOk, Except.toBool])
  refine ⟨?_, ?_⟩
  · rw [hrun]
    simp [SolverChain.candidates, workingSolver]
  · rw [hlog]
    rfl

/-! Glpk value-section lemmas for C8. -/

/-- Well-formed Glpk value line: at least 4 whitespace fields and a
numeric field at index 3. -/
def wellFormedGlpkLine (l : String) : Prop :=
  4 ≤ (splitWhitespace l).length ∧ (((splitWhitespace l).get? 3).bind parseF32).isSome = true

instance wellFormedGlpkLine.dec : DecidablePred wellFormedGlpkLine := by
  intro l
  rw [wellFormedGlpkLine]
  infer_instance

/-- Name and parsed value carried by a Glpk value line. -/
def glpkLineEntry (l : String) : Option (String × ℚ) :=
  match (splitWhitespace l).get? 1, ((splitWhitespace l).get? 3).bind parseF32 with
  | some n, some v => some (n, v)
  | _, _ => none

lemma splitWhitespace_ne_empty (s : String) : ∀ t ∈ splitWhitespace s, t ≠ "" := by
  intro t ht
  rw [splitWhitespace] at ht
  have := (List.mem_filter.mp ht).2
  simpa using this

lemma wf_line_fields (l : String) (hwf : wellFormedGlpkLine l) :
    ∃ f1 f3 v, (splitWhitespace l).get? 1 = some f1 ∧ (splitWhitespace l).get? 3 = some f3 ∧
      parseF32 f3 = some v := by
  obtain ⟨hlen, hsome⟩ := hwf
  cases hf3 : (splitWhitespace l).get? 3 with
  | none =>
    rw [hf3] at hsome
    simp at hsome
  | some f3 =>
    cases hp : parseF32 f3 with
    | none =>
      rw [hf3] at hsome
      simp [hp] at hsome
    | some v =>
      cases hf1 : (splitWhitespace l).get? 1 with
      | none =>
        rw [List.get?_eq_none] at hf1
        omega
      | some f1 => exact ⟨f1, f3, v, rfl, rfl, hp⟩

lemma glpk_values_cons_wf (l : String) (rest : List String) (n : Nat) (acc : VarMap)
    (f1 f3 : String) (v : ℚ)
    (hf1 : (splitWhitespace l).get? 1 = some f1)
    (hf3 : (splitWhitespace l).get? 3 = some f3)
    (hv : parseF32 f3 = some v)
    (hlen : 4 ≤ (splitWhitespace l).length) :
    glpkReadValues (l :: rest) (n + 1) acc = glpkReadValues rest n (acc.insertV f1 v) := by
  simp only [glpkReadValues, ge_iff_le]
  rw [if_pos hlen, hf3]
  simp only [hv, hf1]

lemma glpk_values_short (rest : List String) (n : Nat) (acc : VarMap)
    (hlen : rest.length < n) (hwf : ∀ l ∈ rest, wellFormedGlpkLine l) :
    glpkReadValues rest n acc =
      .err "Incorrect solution format: Not all columns are present" := by
  induction rest generalizing n acc with
  | nil =>
    cases n with
    | zero => omega
    | succ n => rfl
  | cons l rest ih =>
    cases n with
    | zero => simp at hlen
    | succ n =>
      obtain ⟨f1, f3, v, hf1, hf3, hv⟩ := wf_line_fields l (hwf l (by simp))
      rw [glpk_values_cons_wf l rest n acc f1 f3 v hf1 hf3 hv (hwf l (by simp)).1]
      exact ih n _ (by simpa using hlen) (fun x hx => hwf x (by simp [hx]))

lemma glpk_values_ok (n : Nat) (rest : List String) (acc : VarMap)
    (hlen : n ≤ rest.length) (hwf : ∀ l ∈ rest.take n, wellFormedGlpkLine l) :
    glpkReadValues rest n acc =
      .ok (((rest.take n).filterMap glpkLineEntry).foldl
        (fun a nv => a.insertV nv.1 nv.2) acc) := by
  induction n generalizing rest acc with
  | zero => simp [glpkReadValues]
  | succ n ih =>
    cases rest with
    | nil => simp at hlen
    | cons l rest =>
      have hwfl : wellFormedGlpkLine l := hwf l (by simp)
      obtain ⟨f1, f3, v, hf1, hf3, hv⟩ := wf_line_fields l hwfl
      rw [glpk_values_cons_wf l rest n acc f1 f3 v hf1 hf3 hv hwfl.1]
      have hentry : glpkLineEntry l = some (f1, v) := by
        rw [glpkLineEntry, hf1, hf3]
        simp [hv]
      rw [ih rest _ (by simpa using hlen)
        (fun x hx => hwf x (by simp [List.take_succ_cons, hx]))]
      rw [List.take_succ_cons, List.filterMap_cons, hentry, List.foldl_cons]

lemma glpk_values_badlen (pre : List String) (l : String) (post : List String) (n : Nat)
    (acc : VarMap) (hpre : pre.length < n) (hwf : ∀ x ∈ pre, wellFormedGlpkLine x)
    (hbad : (splitWhitespace l).length < 4) :
    glpkReadValues (pre ++ l :: post) n acc =
      .err "Incorrect solution format: Column specification has to few fields" := by
  induction pre generalizing n acc with
  | nil =>
    cases n with
    | zero => omega
    | succ n =>
      simp only [List.nil_append, glpkReadValues, ge_iff_le]
      rw [if_neg (by omega)]
  | cons x pre ih =>
    cases n with
    | zero => simp at hpre
    | succ n =>
      have hwfx : wellFormedGlpkLine x := hwf x (by simp)
      obtain ⟨f1, f3, v, hf1, hf3, hv⟩ := wf_line_fields x hwfx
      rw [List.cons_append, glpk_values_cons_wf x (pre ++ l :: post) n acc f1 f3 v hf1 hf3 hv hwfx.1]
      exact ih n _ (by simpa using hpre) (fun y hy => hwf y (by simp [hy]))

lemma glpk_values_badparse (pre : List String) (l : String) (post : List String) (n : Nat)
    (acc : VarMap) (hpre : pre.length < n) (hwf : ∀ x ∈ pre, wellFormedGlpkLine x)
    (hlen4 : 4 ≤ (splitWhitespace l).length)
    (hbad : ((splitWhitespace l).get? 3).bind parseF32 = none) :
    glpkReadValues (pre ++ l :: post) n acc = .err "invalid float literal" := by
  induction pre generalizing n acc with
  | nil =>
    cases n with
    | zero => omega
    | succ n =>
      cases hf3 : (splitWhitespace l).get? 3 with
      | none =>
        rw [List.get?_eq_none] at hf3
        omega
      | some f3 =>
        rw [hf3] at hbad
        simp only [Option.some_bind] at hbad
        have hne : f3 ≠ "" :=
          splitWhitespace_ne_empty l f3 (List.get?_mem hf3)
        simp only [List.nil_append, glpkReadValues, ge_iff_le]
        rw [if_pos hlen4, hf3]
        simp only [hbad]
        rw [parseErrMsg, if_neg hne]
  | cons x pre ih =>
    cases n with
    | zero => simp at hpre
    | succ n =>
      have hwfx : wellFormedGlpkLine x := hwf x (by simp)
      obtain ⟨f1, f3, v, hf1, hf3, hv⟩ := wf_line_fields x hwfx
      rw [List.cons_append, glpk_values_cons_wf x (pre ++ l :: post) n acc f1 f3 v hf1 hf3 hv hwfx.1]
      exact ih n _ (by simpa using hpre) (fun y hy => hwf y (by simp [hy]))

/-- C8 counterexample: the error produced by a failing numeric field is
the constant message of the float parser; two artifacts differing in the
offending variable name and the offending field yield the identical
error, which therefore names neither. -/
theorem c8_parse_error_is_constant :
    glpkReadSolution (["p", "Rows: 0", "Columns: 1", "h", "Status:     OPTIMAL"]
        ++ ["s1", "s2", "s3", "s4", "s5", "s6", "s7"] ++ [" 1 alpha B foo 0"]) =
      .err "invalid float literal" ∧
    glpkReadSolution (["p", "Rows: 0", "Columns: 1", "h", "Status:     OPTIMAL"]
        ++ ["s1", "s2", "s3", "s4", "s5", "s6", "s7"] ++ [" 1 beta B bar 0"]) =
      .err "invalid float literal" := by
  exact ⟨by decide, by decide⟩

/-- C8 amended: with headers declaring r rows and c columns and a valid
status line, the parser skips r + 7 lines past the status line and reads
exactly c lines from there; missing lines give the column-count format
error, a line with fewer than 4 fields gives the field-count format
error, and otherwise field 3 of each line is parsed as the value of the
variable named by field 1 (a value that fails numeric parsing yields the
float parser message, which does not identify the offending field). -/
theorem c8_glpk_value_section
    (l0 rowLine colLine l3 statusLine : String) (r c : Nat) (status : Status)
    (skipped rest : List String)
    (hrow : readSize (some rowLine) = .ok r)
    (hcol : readSize (some colLine) = .ok c)
    (hstatus : glpkStatusFromLine statusLine = .ok status)
    (hskip : skipped.length = r + 7) :
    (glpkReadSolution ([l0, rowLine, colLine, l3, statusLine] ++ skipped ++ rest) =
      match glpkReadValues rest c [] with
      | .ok m => .ok ⟨status, m⟩
      | .err e => .err e
      | .panicked m => .panicked m) ∧
    (rest.length < c → (∀ l ∈ rest, wellFormedGlpkLine l) →
      glpkReadValues rest c [] =
        .err "Incorrect solution format: Not all columns are present") ∧
    (c ≤ rest.length → (∀ l ∈ rest.take c, wellFormedGlpkLine l) →
      glpkReadValues rest c [] =
        .ok (((rest.take c).filterMap glpkLineEntry).foldl
          (fun a nv => a.insertV nv.1 nv.2) [])) ∧
    (∀ pre l post, rest = pre ++ l :: post → pre.length < c →
      (∀ x ∈ pre, wellFormedGlpkLine x) → (splitWhitespace l).length < 4 →
      glpkReadValues rest c [] =
        .err "Incorrect solution format: Column specification has to few fields") ∧
    (∀ pre l post, rest = pre ++ l :: post → pre.length < c →
      (∀ x ∈ pre, wellFormedGlpkLine x) → 4 ≤ (splitWhitespace l).length →
      ((splitWhitespace l).get? 3).bind parseF32 = none →
      glpkReadValues rest c [] = .err "invalid float literal") := by
  refine ⟨?_, ?_, ?_, ?_, ?_⟩
  · rw [glpkReadSolution]
    have h1 : ([l0, rowLine, colLine, l3, statusLine] ++ skipped ++ rest).get? 1
        = some rowLine := rfl
    have h2 : ([l0, rowLine, colLine, l3, statusLine] ++ skipped ++ rest).get? 2
        = some colLine := rfl
    have h4 : ([l0, rowLine, colLine, l3, statusLine] ++ skipped ++ rest).get? 4
        = some statusLine := rfl
    have hlen5 : ([l0, rowLine, colLine, l3, statusLine] ++ skipped).length = 12 + r := by
      simp [hskip]
      omega
    have hdrop : ([l0, rowLine, colLine, l3, statusLine] ++ skipped ++ rest).drop (12 + r)
        = rest := by
      rw [← hlen5, List.drop_left]
    simp only [h1, hrow, h2, hcol, h4, hstatus, hdrop]
  · intro hshort hwf
    exact glpk_values_short rest c [] hshort hwf
  · intro hlong hwf
    exact glpk_values_ok c rest [] hlong hwf
  · intro pre l post hrest hpre hwf hbad
    rw [hrest]
    exact glpk_values_badlen pre l post c [] hpre hwf hbad
  · intro pre l post hrest hpre hwf hlen4 hbad
    rw [hrest]
    exact glpk_values_badparse pre l post c [] hpre hwf hlen4 hbad

/-- C8 witness: a two-column artifact with row count 0, exercising the
happy path at a concrete file. -/
theorem c8_glpk_value_section_witness :
    glpkReadSolution (["p", "Rows: 0", "Columns: 2", "h", "Status:     OPTIMAL"]
        ++ ["s1", "s2", "s3", "s4", "s5", "s6", "s7"]
        ++ [" 1 x B 2 0", " 2 y B 7 0"]) =
      .ok ⟨.Optimal, [("x", 2), ("y", 7)]⟩ := by
  obtain ⟨hmain, -, hok, -, -⟩ :=
    c8_glpk_value_section "p" "Rows: 0" "Columns: 2" "h" "Status:     OPTIMAL" 0 2 .Optimal
      ["s1", "s2", "s3", "s4", "s5", "s6", "s7"] [" 1 x B 2 0", " 2 y B 7 0"]
      (by decide) (by decide) (by decide) (by decide)
  rw [hmain, hok (by decide) (by decide)]
  decide

end LpSolvers
